import Mathlib

/-!
Verification of the dev-server supervisor core of the git-worktrees
repository: host allocation (src/stores/host-allocation-store.ts),
the circular log buffer and readiness detection (src/helpers/host-manager.ts),
process stop/cleanup bookkeeping (src/helpers/host-manager.ts), and the
reverse-proxy route manager (src/helpers/proxy-manager.ts).

JavaScript objects used as string-keyed maps are embedded as association
lists (List (String × α)); object spread / delete become setKey / removeKey.
-/

set_option autoImplicit false

namespace GitWorktrees

/-! ## Generic association-list helpers (JS object-as-map semantics) -/
/-- Remove a key from an association list (JS delete obj[k]). -/
def removeKey {α : Type} (m : List (String × α)) (k : String) : List (String × α) :=
  m.filter (fun p => p.1 != k)

/-- Set a key in an association list (JS spread-and-override).  The result
has the binding for k at the end; lookups agree with JS semantics. -/
def setKey {α : Type} (m : List (String × α)) (k : String) (v : α) : List (String × α) :=
  removeKey m k ++ [(k, v)]

/-! ## Host allocator (src/stores/host-allocation-store.ts) -/
/-- One persisted host allocation record. -/
structure HostAllocation where
  host : String
  worktreePath : String
  allocatedAt : String
  deriving Repr, DecidableEq

/-- The allocations table: worktree path → HostAllocation. -/
abbrev AllocMap := List (String × HostAllocation)

def BASE_HOST : String := "127.0.0."

def START_HOST_INDEX : Nat := 2

def MAX_HOST_INDEX : Nat := 255

/-- The loopback address for pool index i. -/
def hostOfIndex (i : Nat) : String := BASE_HOST ++ toString i

/-- Object.values(currentAllocations).map(a => a.host). -/
def usedHosts (a : AllocMap) : List String := a.map (fun p => p.2.host)

/-- The for-loop of allocateHost: scan indices i, i+1, ..., i+k-1 and
return the first index whose host is not in used. -/
def findFreeAux (used : List String) : Nat → Nat → Option Nat
  | _, 0 => none
  | i, k + 1 =>
    if used.contains (hostOfIndex i) then findFreeAux used (i + 1) k else some i

/-- First-fit scan over the pool 127.0.0.2 .. 127.0.0.255. -/
def findFreeIndex (used : List String) : Option Nat :=
  findFreeAux used START_HOST_INDEX (MAX_HOST_INDEX + 1 - START_HOST_INDEX)

/-- allocateHost(worktreePath): return the existing host if already
allocated, otherwise first-fit a fresh pool address and record it; throws
when the pool is exhausted.  The thrown Error is embedded as Except.error. -/
def allocateHost (a : AllocMap) (worktreePath : String) (now : String) :
    Except String (String × AllocMap) :=
  match a.lookup worktreePath with
  | some existing => .ok (existing.host, a)
  | none =>
    match findFreeIndex (usedHosts a) with
    | some i =>
      .ok (hostOfIndex i,
        setKey a worktreePath ⟨hostOfIndex i, worktreePath, now⟩)
    | none => .error "No available hosts. Maximum number of dev servers reached."

/-- deallocateHost(worktreePath): delete the entry (no-op when absent). -/
def deallocateHost (a : AllocMap) (worktreePath : String) : AllocMap :=
  removeKey a worktreePath

/-- cleanupStaleAllocations(activeWorktreePaths): drop every allocation
whose path is not in the active set. -/
def cleanupStaleAllocations (a : AllocMap) (activePaths : List String) : AllocMap :=
  a.filter (fun p => activePaths.contains p.1)

/-! ### Reachable allocation states and the distinct-hosts invariant (C1) -/
/-- States of the allocation table reachable from the empty table by any
sequence of allocateHost / deallocateHost / cleanupStaleAllocations calls. -/
inductive ReachableAlloc : AllocMap → Prop
  | empty : ReachableAlloc []
  | allocate (a : AllocMap) (path now host : String) (a2 : AllocMap) :
      ReachableAlloc a → allocateHost a path now = .ok (host, a2) → ReachableAlloc a2
  | deallocate (a : AllocMap) (path : String) :
      ReachableAlloc a → ReachableAlloc (deallocateHost a path)
  | cleanup (a : AllocMap) (active : List String) :
      ReachableAlloc a → ReachableAlloc (cleanupStaleAllocations a active)

/-! ## CircularBuffer (src/helpers/host-manager.ts, also src/helpers/process.ts) -/
/-- The ring buffer used for log lines.  It is instantiated at type string
in the source; a JS array hole (undefined, falsy) is modelled as the empty
string, which is equally falsy. -/
structure CircularBuffer where
  maxSize : Nat
  buffer : List String
  pointer : Nat
  size : Nat
  deriving Repr, DecidableEq

/-- new CircularBuffer(maxSize). -/
def CircularBuffer.create (maxSize : Nat) : CircularBuffer :=
  ⟨maxSize, List.replicate maxSize "", 0, 0⟩

/-- push(item). -/
def CircularBuffer.push (b : CircularBuffer) (item : String) : CircularBuffer :=
  { b with
    buffer := b.buffer.set b.pointer item
    pointer := (b.pointer + 1) % b.maxSize
    size := if b.size < b.maxSize then b.size + 1 else b.size }

/-- toArray(): the non-full branch slices the first size slots; the full
branch rotates at the pointer and applies filter(Boolean), which on strings
drops empty strings. -/
def CircularBuffer.toArray (b : CircularBuffer) : List String :=
  if b.size < b.maxSize then b.buffer.take b.size
  else (b.buffer.drop b.pointer ++ b.buffer.take b.pointer).filter (fun s => s != "")

/-- A sequence of push calls. -/
def CircularBuffer.pushAll (b : CircularBuffer) (items : List String) : CircularBuffer :=
  items.foldl CircularBuffer.push b

/-- The buffer contents read in ring order starting at the pointer. -/
def ringRotation (b : CircularBuffer) : List String :=
  b.buffer.drop b.pointer ++ b.buffer.take b.pointer

/-- Invariant tying a buffer state to the list of items pushed so far. -/
structure RingInv (N : Nat) (l : List String) (b : CircularBuffer) : Prop where
  hmax : b.maxSize = N
  hlen : b.buffer.length = N
  hptr : b.pointer = l.length % N
  hsize : b.size = min l.length N
  hrot : ringRotation b =
    if l.length < N then List.replicate (N - l.length) "" ++ l
    else l.drop (l.length - N)

/-! ## Readiness detector (src/helpers/host-manager.ts lines 999-1151) -/
/-- JS String.prototype.includes, on character lists. -/
def listIsInfixOf (needle : List Char) : List Char → Bool
  | [] => needle.isEmpty
  | c :: rest => needle.isPrefixOf (c :: rest) || listIsInfixOf needle rest

/-- output.includes(sub). -/
def includesStr (s sub : String) : Bool := listIsInfixOf sub.toList s.toList

/-- output.toLowerCase(). -/
def lowerStr (s : String) : String := String.mk (s.toList.map Char.toLower)

def DEV_SERVER_SUCCESS_MESSAGE : String := "All apps are now running"

/-- isSuccessMessage(output). -/
def isSuccessMessage (output : String) : Bool :=
  let lowerOutput := lowerStr output
  includesStr output DEV_SERVER_SUCCESS_MESSAGE ||
  includesStr lowerOutput "ready" ||
  includesStr lowerOutput "compiled successfully" ||
  includesStr lowerOutput "started on" ||
  includesStr lowerOutput "listening on" ||
  includesStr lowerOutput "server running" ||
  includesStr lowerOutput "dev server running" ||
  (includesStr lowerOutput "local" && includesStr lowerOutput "http") ||
  includesStr lowerOutput "webpack compiled"

/-- isFailureMessage(output). -/
def isFailureMessage (output : String) : Bool :=
  let lowerOutput := lowerStr output
  includesStr lowerOutput "exited with code" ||
  includesStr lowerOutput "command failed" ||
  includesStr lowerOutput "elifecycle" ||
  includesStr lowerOutput "failed to connect" ||
  includesStr lowerOutput "error:" ||
  includesStr lowerOutput "cannot find module" ||
  includesStr lowerOutput "module not found"

inductive ReadyOutcome
  | ready
  | failed
  deriving Repr, DecidableEq

/-- One output event handled by the readiness wait of
startProcessAndWaitForReady: the line together with whether startProcess's
promise had already assigned processInfo when the line was handled (events
can be delivered before that assignment).  Once resolved the outcome
latches; on an unresolved wait the failure check comes first, and the
success branch additionally requires processInfo to be assigned (the
processInfo conjunct of the source's success condition). -/
def stepReady (st : Option ReadyOutcome) (ev : Bool × String) : Option ReadyOutcome :=
  match st with
  | some r => some r
  | none =>
    if isFailureMessage ev.2 then some ReadyOutcome.failed
    else if ev.1 && isSuccessMessage ev.2 then some ReadyOutcome.ready
    else none

/-- Outcome of the readiness wait after a stream of output events (before
either timeout clock fires). -/
def waitOutcome (events : List (Bool × String)) : Option ReadyOutcome :=
  events.foldl stepReady none

/-! ## Supervisor bookkeeping state (host-manager.ts with its stores) -/
/-- Persisted proxy state per worktree (src/config/types via proxy-store). -/
structure ProxyState where
  worktreePath : String
  targetHost : String
  ports : List Nat
  status : String
  caddyServerIds : List String
  createdAt : String
  updatedAt : String
  deriving Repr, DecidableEq

/-- Persisted process record (process-store StoredProcessData). -/
structure StoredProcessData where
  pid : Nat
  command : String
  args : List String
  outputFile : Option String
  errorFile : Option String
  startTime : String
  host : Option String
  deriving Repr, DecidableEq

/-- In-memory process info (ProcessInfo of host-manager.ts). -/
structure ProcessInfo where
  pid : Nat
  command : String
  args : List String
  cwd : String
  startTime : String
  outputBuffer : List String
  errorBuffer : List String
  status : String
  outputFile : Option String
  errorFile : Option String
  host : Option String
  deriving Repr, DecidableEq

/-- One entry of the in-memory running registry: the info record plus the
log files being followed by the attached tail readers. -/
structure RunningEntry where
  info : ProcessInfo
  tailFiles : List String
  deriving Repr, DecidableEq

/-- The supervisor bookkeeping state: in-memory registry, persisted process
store, host allocations and persisted proxy states. -/
structure SupState where
  running : List (String × RunningEntry)
  stored : List (String × StoredProcessData)
  allocations : AllocMap
  proxyStates : List (String × ProxyState)
  deriving Repr, DecidableEq

/-- stopProcess(worktreePath) (src/helpers/host-manager.ts lines 546-623).
The kill passes against the OS are external effects; the bookkeeping sets
the record status to stopped (returned here for observation) and removes it
from the registry, then, when a persisted entry exists, deallocates the
host and deletes the persisted entry.  Nothing touches proxyStates. -/
def stopProcess (s : SupState) (worktreePath : String) :
    SupState × Option ProcessInfo :=
  let running2 :=
    match s.running.lookup worktreePath with
    | some _ => removeKey s.running worktreePath
    | none => s.running
  let finalInfo :=
    match s.running.lookup worktreePath with
    | some entry => some { entry.info with status := "stopped" }
    | none => none
  match s.stored.lookup worktreePath with
  | some _ =>
    ({ s with
        running := running2
        stored := removeKey s.stored worktreePath
        allocations := deallocateHost s.allocations worktreePath }, finalInfo)
  | none => ({ s with running := running2 }, finalInfo)

/-- A concrete state with a tracked running record, a persisted entry, a
host allocation and an active proxy binding for path /wt. -/
def cexInfo : ProcessInfo :=
  { pid := 42, command := "pnpm dev", args := [], cwd := "/wt", startTime := "t0",
    outputBuffer := [], errorBuffer := [], status := "running",
    outputFile := some "/tmp/o.log", errorFile := some "/tmp/e.log",
    host := some "127.0.0.2" }

def cexProxy : ProxyState :=
  { worktreePath := "/wt", targetHost := "127.0.0.2", ports := [3000],
    status := "active", caddyServerIds := ["srv_x_3000"],
    createdAt := "t0", updatedAt := "t0" }

def cexState : SupState :=
  { running := [("/wt", { info := cexInfo, tailFiles := ["/tmp/o.log", "/tmp/e.log"] })],
    stored := [("/wt",
      { pid := 42, command := "pnpm", args := ["dev"], outputFile := some "/tmp/o.log",
        errorFile := some "/tmp/e.log", startTime := "t0", host := some "127.0.0.2" })],
    allocations := [("/wt", { host := "127.0.0.2", worktreePath := "/wt", allocatedAt := "t0" })],
    proxyStates := [("/wt", cexProxy)] }

/-! ## getWorktreeId (src/helpers/proxy-manager.ts lines 19-23) -/
/-- The standard base64 alphabet used by Buffer.toString("base64"). -/
def base64Chars : List Char :=
  "ABCDEFGHIJKLMNOPQRSTUVWXYZabcdefghijklmnopqrstuvwxyz0123456789+/".toList

def sextetChar (n : Nat) : Char := base64Chars.getD n 'A'

/-- RFC 4648 base64 of a byte sequence, with padding. -/
def base64Encode : List Nat → List Char
  | [] => []
  | [b1] => [sextetChar (b1 / 4), sextetChar (b1 % 4 * 16), '=', '=']
  | [b1, b2] =>
    [sextetChar (b1 / 4), sextetChar (b1 % 4 * 16 + b2 / 16), sextetChar (b2 % 16 * 4), '=']
  | b1 :: b2 :: b3 :: rest =>
    sextetChar (b1 / 4) :: sextetChar (b1 % 4 * 16 + b2 / 16) ::
      sextetChar (b2 % 16 * 4 + b3 / 64) :: sextetChar (b3 % 64) :: base64Encode rest

/-- The character class kept by replace(non-alphanumeric, ""). -/
def isAlnumChar (c : Char) : Bool :=
  ('a' ≤ c && c ≤ 'z') || ('A' ≤ c && c ≤ 'Z') || ('0' ≤ c && c ≤ '9')

/-- Bytes of a worktree path.  Paths are taken to be ASCII, where the UTF-8
byte sequence produced by Buffer.from(path) is the list of code points. -/
def strBytes (s : String) : List Nat := s.toList.map (fun c => c.toNat)

/-- getWorktreeId(worktreePath): base64 of the path with every character
outside a-z, A-Z, 0-9 removed. -/
def getWorktreeId (path : String) : String :=
  String.mk ((base64Encode (strBytes path)).filter isAlnumChar)

/-! ## Proxy route manager (src/helpers/proxy-manager.ts) -/
/-- The proxy-manager view of the world: the persisted per-worktree proxy
states and the set of server ids configured in the external Caddy admin
API. -/
structure ProxyWorld where
  proxyStates : List (String × ProxyState)
  caddyServers : List String
  deriving Repr, DecidableEq

/-- The per-port Caddy server id srv_id_port. -/
def srvId (path : String) (port : Nat) : String :=
  "srv_" ++ getWorktreeId path ++ "_" ++ toString port

/-- DELETE /config/apps/http/servers/id. -/
def removeId (cs : List String) (sid : String) : List String :=
  cs.filter (fun c => c != sid)

/-- PUT /config/apps/http/servers/id (replaces an existing id). -/
def addId (cs : List String) (sid : String) : List String :=
  if cs.contains sid then cs else cs ++ [sid]

/-- removeProxyRoutes(worktreePath): no-op without a stored state;
otherwise DELETE each per-port server id, then clear the state.  DELETE
calls are modelled as reaching the admin API; the unreachable-admin case
is screened out by isProxyServerInstalled before setup runs. -/
def removeProxyRoutes (w : ProxyWorld) (path : String) : ProxyWorld × Bool :=
  match w.proxyStates.lookup path with
  | none => (w, false)
  | some st =>
    ({ proxyStates := removeKey w.proxyStates path,
       caddyServers :=
         st.ports.foldl (fun cs port => removeId cs (srvId path port)) w.caddyServers },
     true)

/-- One step of the conflict scan at the top of setupProxyRoutes: another
worktree whose snapshot state is active and shares a port with the
requested list has its routes removed. -/
def conflictStep (path : String) (ports : List Nat) (acc : ProxyWorld)
    (other : String × ProxyState) : ProxyWorld :=
  if other.1 != path && other.2.status == "active" &&
      !(other.2.ports.filter (fun p => ports.contains p)).isEmpty then
    (removeProxyRoutes acc other.1).1
  else acc

/-- The conflict scan over the snapshot of all proxy states. -/
def conflictPass (w : ProxyWorld) (path : String) (ports : List Nat) : ProxyWorld :=
  w.proxyStates.foldl (conflictStep path ports) w

/-- The per-port registration loop of setupProxyRoutes.  putOk abstracts
whether the admin PUT for a port succeeds (response.ok); serverIds.push
happens before the check, so on the first failing port the loop stops with
that id already in the accumulator, as in the source. -/
def registerLoop (putOk : Nat → Bool) (path : String) :
    List Nat → List String → List String → List String × List String × Bool
  | [], caddy, acc => (caddy, acc, true)
  | port :: rest, caddy, acc =>
    if putOk port then
      registerLoop putOk path rest (addId caddy (srvId path port))
        (acc ++ [srvId path port])
    else (caddy, acc ++ [srvId path port], false)

/-- setupProxyRoutes(worktreePath, targetHost, ports), after the
isProxyServerInstalled check has passed: conflict scan, per-port
registration, then either the active state is saved, or every server id
pushed by this call is DELETEd and the states are left as after the
conflict scan. -/
def setupProxyRoutes (w : ProxyWorld) (path targetHost : String) (ports : List Nat)
    (putOk : Nat → Bool) (now : String) : ProxyWorld × Bool :=
  match registerLoop putOk path ports (conflictPass w path ports).caddyServers [] with
  | (caddy2, sids, true) =>
    ({ proxyStates := setKey (conflictPass w path ports).proxyStates path
        { worktreePath := path, targetHost := targetHost, ports := ports,
          status := "active", caddyServerIds := sids,
          createdAt := now, updatedAt := now },
       caddyServers := caddy2 }, true)
  | (caddy2, sids, false) =>
    ({ proxyStates := (conflictPass w path ports).proxyStates,
       caddyServers := sids.foldl removeId caddy2 }, false)

/-- The concrete world for the C6 witness: path /b is active on port
3000 with its route registered. -/
def c6StB : ProxyState :=
  { worktreePath := "/b", targetHost := "127.0.0.3", ports := [3000],
    status := "active", caddyServerIds := [srvId "/b" 3000],
    createdAt := "t0", updatedAt := "t0" }

def c6World : ProxyWorld :=
  { proxyStates := [("/b", c6StB)], caddyServers := [srvId "/b" 3000] }

/-! ## Orphan reconciliation (src/helpers/host-manager.ts lines 636-861) -/
/-- The supervisor's environment: filesystem and process-table oracles.
fileTail f is the line list produced by tail -n 1000 f split on newlines. -/
structure Env where
  dirExists : String → Bool
  pidAlive : Nat → Bool
  fileExists : String → Bool
  fileTail : String → List String

/-- External effects done by reconciliation, recorded for observation.
spawnDevServer is the effect of startProcess spawning a dev-server child;
reconciliation must never emit it. -/
inductive SupAction
  | killOrphanTails
  | spawnTail (file : String)
  | startPoller (path : String)
  | spawnDevServer (path command : String)
  deriving Repr, DecidableEq

def MAX_OUTPUT_LINES : Nat := 50000

/-- The lines pushed into a restored buffer from one optional log file:
the tail of the file, keeping lines whose trim is non-empty. -/
def tailLines (env : Env) (f : Option String) : List String :=
  match f with
  | some file =>
    if env.fileExists file then (env.fileTail file).filter (fun l => l.trim != "")
    else []
  | none => []

/-- The files a restored record tails (those that still exist). -/
def tailedFiles (env : Env) (f : Option String) : List String :=
  match f with
  | some file => if env.fileExists file then [file] else []
  | none => []

/-- hasOutputFile || hasErrorFile of restoreProcessFromStorage. -/
def hasLogFile (env : Env) (data : StoredProcessData) : Bool :=
  (match data.outputFile with | some f => env.fileExists f | none => false) ||
  (match data.errorFile with | some f => env.fileExists f | none => false)

/-- The in-memory info rebuilt by restoreProcessFromStorage: buffers are
ring buffers refilled from the log tails, status running, pid from the
stored record. -/
def restoredInfo (env : Env) (path : String) (data : StoredProcessData) : ProcessInfo :=
  { pid := data.pid, command := data.command, args := data.args, cwd := path,
    startTime := data.startTime,
    outputBuffer := ((CircularBuffer.create MAX_OUTPUT_LINES).pushAll
      (tailLines env data.outputFile)).toArray,
    errorBuffer := ((CircularBuffer.create MAX_OUTPUT_LINES).pushAll
      (tailLines env data.errorFile)).toArray,
    status := "running", outputFile := data.outputFile, errorFile := data.errorFile,
    host := data.host }

def restoredTailFiles (env : Env) (data : StoredProcessData) : List String :=
  tailedFiles env data.outputFile ++ tailedFiles env data.errorFile

/-- The host-allocation restore at the top of restoreProcessFromStorage:
when the stored record has a host and the store has no (truthy) host for
the path, the allocation is re-added with the stored start time. -/
def restoreAllocations (s : SupState) (path : String) (data : StoredProcessData) :
    AllocMap :=
  match data.host with
  | none => s.allocations
  | some h =>
    match s.allocations.lookup path with
    | some ex =>
      if ex.host = "" then setKey s.allocations path ⟨h, path, data.startTime⟩
      else s.allocations
    | none => setKey s.allocations path ⟨h, path, data.startTime⟩

/-- restoreProcessFromStorage(worktreePath, data): restore the host
allocation; when at least one log file still exists, rebuild the buffers
from the file tails, register the record as running with re-attached tail
readers, and restart the liveness poller.  No dev-server process is
spawned on this path. -/
def restoreProcessFromStorage (env : Env) (s : SupState) (path : String)
    (data : StoredProcessData) : SupState × List SupAction :=
  if hasLogFile env data then
    ({ s with
        allocations := restoreAllocations s path data
        running := setKey s.running path
          { info := restoredInfo env path data,
            tailFiles := restoredTailFiles env data } },
     (restoredTailFiles env data).map SupAction.spawnTail ++
       [SupAction.startPoller path])
  else
    ({ s with allocations := restoreAllocations s path data }, [])

/-- One entry of the reconciliation loop of cleanupOrphanedProcesses:
drop the entry and deallocate its host when its directory is gone or its
pid is dead, otherwise restore it. -/
def cleanupStep (env : Env) (acc : SupState × List SupAction)
    (entry : String × StoredProcessData) : SupState × List SupAction :=
  if !(env.dirExists entry.1) then
    ({ acc.1 with
        stored := removeKey acc.1.stored entry.1
        allocations := deallocateHost acc.1.allocations entry.1 }, acc.2)
  else if !(env.pidAlive entry.2.pid) then
    ({ acc.1 with
        stored := removeKey acc.1.stored entry.1
        allocations := deallocateHost acc.1.allocations entry.1 }, acc.2)
  else
    ((restoreProcessFromStorage env acc.1 entry.1 entry.2).1,
     acc.2 ++ (restoreProcessFromStorage env acc.1 entry.1 entry.2).2)

/-- cleanupOrphanedProcesses(): kill orphaned tail readers, then reconcile
every persisted entry; the final storeProcesses call persists the
deletions already applied to the table. -/
def cleanupOrphanedProcesses (env : Env) (s : SupState) :
    SupState × List SupAction :=
  s.stored.foldl (cleanupStep env) (s, [SupAction.killOrphanTails])

def c8Data : StoredProcessData :=
  { pid := 7, command := "pnpm", args := ["dev"], outputFile := some "/tmp/o.log",
    errorFile := some "/tmp/e.log", startTime := "t0", host := some "127.0.0.2" }

def c8State : SupState :=
  { running := [], stored := [("/wt", c8Data)], allocations := [], proxyStates := [] }

/-- Environment for the C8 witness: directory present, pid alive, both log
files still on disk with a three-line tail. -/
def c8EnvLive : Env :=
  { dirExists := fun _ => true, pidAlive := fun _ => true,
    fileExists := fun _ => true,
    fileTail := fun _ => ["line one", "", "line two"] }

/-- Environment for the C8 counterexample: pid alive but both log files
deleted. -/
def c8EnvNoLogs : Env :=
  { dirExists := fun _ => true, pidAlive := fun _ => true,
    fileExists := fun _ => false, fileTail := fun _ => [] }

theorem lookup_cons {α : Type} (p : String × α) (t : List (String × α)) (k : String) :
    (p :: t).lookup k = if k = p.1 then some p.2 else t.lookup k := by
  by_cases h : k = p.1
  · simp [List.lookup, show (k == p.1) = true by simpa using h, h]
  · simp [List.lookup, show (k == p.1) = false by simpa using h, h]

theorem removeKey_cons {α : Type} (p : String × α) (t : List (String × α)) (k : String) :
    removeKey (p :: t) k = if p.1 = k then removeKey t k else p :: removeKey t k := by
  by_cases h : p.1 = k
  · simp [removeKey, List.filter_cons, h]
  · simp [removeKey, List.filter_cons, h]

theorem lookup_removeKey_self {α : Type} (m : List (String × α)) (k : String) :
    (removeKey m k).lookup k = none := by
  induction m with
  | nil => rfl
  | cons p t ih =>
    rw [removeKey_cons]
    by_cases h : p.1 = k
    · simpa [h] using ih
    · rw [if_neg h, lookup_cons, if_neg (fun hk => h hk.symm)]
      exact ih

theorem lookup_removeKey_ne {α : Type} (m : List (String × α)) (k k' : String)
    (h : k' ≠ k) : (removeKey m k).lookup k' = m.lookup k' := by
  induction m with
  | nil => rfl
  | cons p t ih =>
    rw [removeKey_cons]
    by_cases hp : p.1 = k
    · rw [if_pos hp, lookup_cons, if_neg (fun hk => h (hk.trans hp)), ih]
    · rw [if_neg hp, lookup_cons, lookup_cons]
      by_cases hq : k' = p.1
      · rw [if_pos hq, if_pos hq]
      · rw [if_neg hq, if_neg hq, ih]

theorem lookup_append_right {α : Type} (m m' : List (String × α)) (k : String)
    (h : m.lookup k = none) : (m ++ m').lookup k = m'.lookup k := by
  induction m with
  | nil => rfl
  | cons p t ih =>
    rw [lookup_cons] at h
    by_cases hq : k = p.1
    · rw [if_pos hq] at h; exact absurd h (by simp)
    · rw [if_neg hq] at h
      rw [List.cons_append, lookup_cons, if_neg hq]
      exact ih h

theorem lookup_setKey_self {α : Type} (m : List (String × α)) (k : String) (v : α) :
    (setKey m k v).lookup k = some v := by
  unfold setKey
  rw [lookup_append_right _ _ _ (lookup_removeKey_self m k), lookup_cons, if_pos rfl]

theorem lookup_setKey_ne {α : Type} (m : List (String × α)) (k k' : String) (v : α)
    (h : k' ≠ k) : (setKey m k v).lookup k' = m.lookup k' := by
  unfold setKey
  rw [← lookup_removeKey_ne m k k' h]
  induction removeKey m k with
  | nil => simp [List.lookup, show (k' == k) = false by simpa using h]
  | cons p t ih =>
    rw [List.cons_append, lookup_cons, lookup_cons]
    by_cases hq : k' = p.1
    · rw [if_pos hq, if_pos hq]
    · rw [if_neg hq, if_neg hq, ih]

/-! ### Specification of the first-fit scan -/
theorem findFreeAux_some (used : List String) (k : Nat) :
    ∀ i r, findFreeAux used i k = some r →
      i ≤ r ∧ r < i + k ∧ used.contains (hostOfIndex r) = false ∧
        ∀ j, i ≤ j → j < r → used.contains (hostOfIndex j) = true := by
  induction k with
  | zero => intro i r h; simp [findFreeAux] at h
  | succ k ih =>
    intro i r h
    rw [findFreeAux] at h
    by_cases hc : used.contains (hostOfIndex i) = true
    · rw [if_pos hc] at h
      obtain ⟨h1, h2, h3, h4⟩ := ih (i + 1) r h
      refine ⟨by omega, by omega, h3, ?_⟩
      intro j hj1 hj2
      rcases Nat.eq_or_lt_of_le hj1 with he | hl
      · exact he ▸ hc
      · exact h4 j hl hj2
    · rw [if_neg hc] at h
      cases h
      exact ⟨Nat.le_refl _, by omega, by simpa using hc,
        fun j hj1 hj2 => absurd (Nat.lt_of_le_of_lt hj1 hj2) (Nat.lt_irrefl _)⟩

theorem findFreeAux_none (used : List String) (k : Nat) :
    ∀ i, findFreeAux used i k = none →
      ∀ j, i ≤ j → j < i + k → used.contains (hostOfIndex j) = true := by
  induction k with
  | zero => intro i _ j hj1 hj2; omega
  | succ k ih =>
    intro i h j hj1 hj2
    rw [findFreeAux] at h
    by_cases hc : used.contains (hostOfIndex i) = true
    · rw [if_pos hc] at h
      rcases Nat.eq_or_lt_of_le hj1 with he | hl
      · exact he ▸ hc
      · exact ih (i + 1) h j hl (by omega)
    · rw [if_neg hc] at h; exact absurd h (by simp)

theorem findFreeAux_eq_some (used : List String) (k : Nat) :
    ∀ i r, i ≤ r → r < i + k → used.contains (hostOfIndex r) = false →
      (∀ j, i ≤ j → j < r → used.contains (hostOfIndex j) = true) →
      findFreeAux used i k = some r := by
  induction k with
  | zero => intro i r h1 h2; omega
  | succ k ih =>
    intro i r h1 h2 h3 h4
    rw [findFreeAux]
    rcases Nat.eq_or_lt_of_le h1 with he | hl
    · subst he
      rw [if_neg (by rw [h3]; exact Bool.false_ne_true)]
    · rw [if_pos (h4 i (Nat.le_refl _) hl)]
      exact ih (i + 1) r hl (by omega) h3 (fun j hj1 hj2 => h4 j (by omega) hj2)

theorem findFreeAux_eq_none (used : List String) (k : Nat) :
    ∀ i, (∀ j, i ≤ j → j < i + k → used.contains (hostOfIndex j) = true) →
      findFreeAux used i k = none := by
  induction k with
  | zero => intro i _; rfl
  | succ k ih =>
    intro i h
    rw [findFreeAux, if_pos (h i (Nat.le_refl _) (by omega))]
    exact ih (i + 1) (fun j hj1 hj2 => h j (by omega) (by omega))

theorem usedHosts_removeKey_sublist (a : AllocMap) (k : String) :
    (usedHosts (removeKey a k)).Sublist (usedHosts a) :=
  List.Sublist.map _ (List.filter_sublist a)

theorem hosts_nodup_of_reachable (a : AllocMap) (h : ReachableAlloc a) :
    (usedHosts a).Nodup := by
  induction h with
  | empty => exact List.nodup_nil
  | allocate a path now host a2 _ heq ih =>
    unfold allocateHost at heq
    cases hl : a.lookup path with
    | some ex => rw [hl] at heq; cases heq; exact ih
    | none =>
      rw [hl] at heq
      cases hf : findFreeIndex (usedHosts a) with
      | none => rw [hf] at heq; exact absurd heq (by simp)
      | some i =>
        rw [hf] at heq
        cases heq
        have hfree : (usedHosts a).contains (hostOfIndex i) = false :=
          (findFreeAux_some (usedHosts a) _ _ _ hf).2.2.1
        have hnotmem : hostOfIndex i ∉ usedHosts (removeKey a path) := by
          intro hmem
          have hm : hostOfIndex i ∈ usedHosts a :=
            (usedHosts_removeKey_sublist a path).mem hmem
          have he : (usedHosts a).elem (hostOfIndex i) = true := List.elem_iff.mpr hm
          rw [show (usedHosts a).contains (hostOfIndex i) =
            (usedHosts a).elem (hostOfIndex i) from rfl, he] at hfree
          cases hfree
        have hsub : (usedHosts (removeKey a path)).Nodup :=
          List.Nodup.sublist (usedHosts_removeKey_sublist a path) ih
        have : usedHosts (setKey a path ⟨hostOfIndex i, path, now⟩) =
            usedHosts (removeKey a path) ++ [hostOfIndex i] := by
          simp [usedHosts, setKey]
        rw [this]
        simpa [List.nodup_append] using ⟨hsub, hnotmem⟩
  | deallocate a path _ ih =>
    exact List.Nodup.sublist (usedHosts_removeKey_sublist a path) ih
  | cleanup a active _ ih =>
    exact List.Nodup.sublist (List.Sublist.map _ (List.filter_sublist a)) ih

/-- Claim C1: for every sequence of allocateHost, deallocateHost and
cleanupStaleAllocations calls starting from the empty table, the allocation
table maps worktree paths to pairwise-distinct hosts: no two entries of the
allocations record hold the same loopback address. -/
theorem C1_hosts_pairwise_distinct (a : AllocMap) (h : ReachableAlloc a) :
    (usedHosts a).Nodup :=
  hosts_nodup_of_reachable a h

/-- Witness for C1 at a concrete reachable state with two allocations. -/
theorem C1_hosts_pairwise_distinct_witness :
    (usedHosts [("wtA", ⟨"127.0.0.2", "wtA", "t0"⟩),
                ("wtB", ⟨"127.0.0.3", "wtB", "t0"⟩)]).Nodup := by
  have h1 : ReachableAlloc [("wtA", ⟨"127.0.0.2", "wtA", "t0"⟩)] :=
    ReachableAlloc.allocate [] "wtA" "t0" "127.0.0.2" _ ReachableAlloc.empty (by rfl)
  have h2 : ReachableAlloc [("wtA", ⟨"127.0.0.2", "wtA", "t0"⟩),
      ("wtB", ⟨"127.0.0.3", "wtB", "t0"⟩)] :=
    ReachableAlloc.allocate _ "wtB" "t0" "127.0.0.3" _ h1 (by rfl)
  exact C1_hosts_pairwise_distinct _ h2

/-- Claim C2: allocateHost is idempotent on an allocated path (same host,
no state change); otherwise it returns the lowest-indexed pool address not
bound to another path and records it; it fails exactly when the path is
unallocated and every pool address 127.0.0.2 .. 127.0.0.255 is bound. -/
theorem C2_allocateHost_postcondition (a : AllocMap) (path now : String) :
    (∀ ex, a.lookup path = some ex → allocateHost a path now = .ok (ex.host, a)) ∧
    (a.lookup path = none →
      ∀ i, START_HOST_INDEX ≤ i → i ≤ MAX_HOST_INDEX →
        (usedHosts a).contains (hostOfIndex i) = false →
        (∀ j, START_HOST_INDEX ≤ j → j < i →
          (usedHosts a).contains (hostOfIndex j) = true) →
        allocateHost a path now =
          .ok (hostOfIndex i, setKey a path ⟨hostOfIndex i, path, now⟩)) ∧
    ((∃ e, allocateHost a path now = .error e) ↔
      (a.lookup path = none ∧
        ∀ j, START_HOST_INDEX ≤ j → j ≤ MAX_HOST_INDEX →
          (usedHosts a).contains (hostOfIndex j) = true)) := by
  refine ⟨?_, ?_, ?_⟩
  · intro ex hl
    unfold allocateHost
    rw [hl]
  · intro hl i h1 h2 h3 h4
    unfold allocateHost
    rw [hl]
    have : findFreeIndex (usedHosts a) = some i :=
      findFreeAux_eq_some (usedHosts a) _ START_HOST_INDEX i h1
        (by unfold START_HOST_INDEX MAX_HOST_INDEX at *; omega) h3 h4
    rw [this]
  · constructor
    · rintro ⟨e, he⟩
      unfold allocateHost at he
      cases hl : a.lookup path with
      | some ex => rw [hl] at he; exact absurd he (by simp)
      | none =>
        rw [hl] at he
        refine ⟨rfl, ?_⟩
        cases hf : findFreeIndex (usedHosts a) with
        | some i => rw [hf] at he; exact absurd he (by simp)
        | none =>
          intro j hj1 hj2
          exact findFreeAux_none (usedHosts a) _ START_HOST_INDEX hf j hj1
            (by unfold START_HOST_INDEX MAX_HOST_INDEX at *; omega)
    · rintro ⟨hl, hall⟩
      unfold allocateHost
      rw [hl]
      have : findFreeIndex (usedHosts a) = none :=
        findFreeAux_eq_none (usedHosts a) _ START_HOST_INDEX
          (fun j hj1 hj2 => hall j hj1
            (by unfold START_HOST_INDEX MAX_HOST_INDEX at *; omega))
      rw [this]
      exact ⟨_, rfl⟩

/-- Witness for C2 at a concrete table: the path is already allocated, so
the same host is returned and the table is unchanged. -/
theorem C2_allocateHost_postcondition_witness :
    allocateHost [("wtA", ⟨"127.0.0.2", "wtA", "t0"⟩)] "wtA" "t1" =
      .ok ("127.0.0.2", [("wtA", ⟨"127.0.0.2", "wtA", "t0"⟩)]) :=
  (C2_allocateHost_postcondition [("wtA", ⟨"127.0.0.2", "wtA", "t0"⟩)] "wtA" "t1").1
    ⟨"127.0.0.2", "wtA", "t0"⟩ (by rfl)

theorem ringRotation_push (b : CircularBuffer) (x : String) (N : Nat)
    (hmax : b.maxSize = N) (hlen : b.buffer.length = N) (hptr : b.pointer < N) :
    ringRotation (b.push x) = (ringRotation b).tail ++ [x] := by
  have hptrlen : b.pointer < b.buffer.length := hlen ▸ hptr
  have hset : b.buffer.set b.pointer x =
      b.buffer.take b.pointer ++ x :: b.buffer.drop (b.pointer + 1) :=
    List.set_eq_take_cons_drop x hptrlen
  have htakelen : (b.buffer.take b.pointer).length = b.pointer := by
    rw [List.length_take]
    exact Nat.min_eq_left (Nat.le_of_lt hptrlen)
  show (b.buffer.set b.pointer x).drop ((b.pointer + 1) % b.maxSize) ++
      (b.buffer.set b.pointer x).take ((b.pointer + 1) % b.maxSize) =
      (b.buffer.drop b.pointer ++ b.buffer.take b.pointer).tail ++ [x]
  rw [hmax, List.drop_eq_getElem_cons hptrlen, List.cons_append, List.tail_cons]
  rcases Nat.lt_or_ge (b.pointer + 1) N with hc | hc
  · rw [Nat.mod_eq_of_lt hc, hset, List.drop_append_eq_append_drop,
      List.take_append_eq_append_take, htakelen,
      List.drop_eq_nil_of_le (by omega : (b.buffer.take b.pointer).length ≤ b.pointer + 1),
      List.take_of_length_le (by omega : (b.buffer.take b.pointer).length ≤ b.pointer + 1)]
    have h1 : b.pointer + 1 - b.pointer = 1 := by omega
    rw [h1]
    simp [List.append_assoc]
  · have hN2 : b.pointer + 1 = N := by omega
    have hmod : (b.pointer + 1) % N = 0 := by rw [hN2, Nat.mod_self]
    have hD : b.buffer.drop (b.pointer + 1) = [] :=
      List.drop_eq_nil_of_le (by rw [hlen]; omega)
    rw [hmod, List.drop_zero, List.take_zero, List.append_nil, hset, hD]
    simp

theorem RingInv.push (N : Nat) (hN : 0 < N) (l : List String) (b : CircularBuffer)
    (h : RingInv N l b) (x : String) : RingInv N (l ++ [x]) (b.push x) := by
  obtain ⟨hmax, hlen, hptr, hsize, hrot⟩ := h
  have hptrlt : b.pointer < N := hptr ▸ Nat.mod_lt _ hN
  refine ⟨hmax, by simp [CircularBuffer.push, hlen], ?_, ?_, ?_⟩
  · show (b.pointer + 1) % b.maxSize = (l ++ [x]).length % N
    rw [hmax, hptr, List.length_append, List.length_singleton, Nat.mod_add_mod]
  · show (if b.size < b.maxSize then b.size + 1 else b.size) = min (l ++ [x]).length N
    rw [hmax, hsize, List.length_append, List.length_singleton]
    rcases Nat.lt_or_ge l.length N with hc | hc
    · rw [if_pos (by omega : min l.length N < N)]
      omega
    · rw [if_neg (by omega : ¬ min l.length N < N)]
      omega
  · rw [ringRotation_push b x N hmax hlen hptrlt, hrot, List.length_append,
      List.length_singleton]
    rcases Nat.lt_or_ge l.length N with hc | hc
    · rw [if_pos hc]
      have hrep : N - l.length = (N - l.length - 1) + 1 := by omega
      rw [hrep, List.replicate_succ, List.cons_append, List.tail_cons]
      rcases Nat.lt_or_ge (l.length + 1) N with hc2 | hc2
      · rw [if_pos hc2]
        have : N - (l.length + 1) = N - l.length - 1 := by omega
        rw [this, List.append_assoc]
      · have he : l.length + 1 = N := by omega
        rw [if_neg (by omega : ¬ l.length + 1 < N), he, Nat.sub_self, List.drop_zero]
        have : N - l.length - 1 = 0 := by omega
        rw [this, List.replicate_zero, List.nil_append]
    · rw [if_neg (by omega : ¬ l.length < N), if_neg (by omega : ¬ l.length + 1 < N),
        List.tail_drop,
        List.drop_append_of_le_length (by omega : l.length + 1 - N ≤ l.length)]
      have : l.length - N + 1 = l.length + 1 - N := by omega
      rw [this]

theorem ringInv_pushAll (N : Nat) (hN : 0 < N) (l : List String) :
    RingInv N l ((CircularBuffer.create N).pushAll l) := by
  induction l using List.reverseRecOn with
  | nil =>
    refine ⟨rfl, ?_, ?_, ?_, ?_⟩ <;>
      simp [CircularBuffer.pushAll, CircularBuffer.create, ringRotation, hN]
  | append_singleton xs x ih =>
    show RingInv N (xs ++ [x]) ((xs ++ [x]).foldl CircularBuffer.push (CircularBuffer.create N))
    rw [List.foldl_append]
    exact RingInv.push N hN xs _ ih x

/-- Claim C3 (amended): pushing any items into a capacity-N buffer leaves
toArray with at most N items, and after pushing 2N non-empty lines, toArray
is exactly the last N pushed lines in insertion order.  (As literally
stated, over arbitrary items, the second half fails for empty strings,
which filter(Boolean) drops; see the counterexample.) -/
theorem C3_circular_buffer_bounded (N : Nat) (hN : 1 ≤ N) (items : List String) :
    ((CircularBuffer.create N).pushAll items).toArray.length ≤ N ∧
    ((∀ s ∈ items, s ≠ "") → items.length = 2 * N →
      ((CircularBuffer.create N).pushAll items).toArray = items.drop N) := by
  obtain ⟨hmax, hlen, hptr, hsize, hrot⟩ := ringInv_pushAll N hN items
  have hptrle : ((CircularBuffer.create N).pushAll items).pointer ≤ N := by
    rw [hptr]; exact Nat.le_of_lt (Nat.mod_lt _ hN)
  have hrotlen : (ringRotation ((CircularBuffer.create N).pushAll items)).length = N := by
    unfold ringRotation
    rw [List.length_append, List.length_drop, List.length_take, hlen]
    omega
  constructor
  · unfold CircularBuffer.toArray
    split
    · rw [List.length_take]
      omega
    · calc ((ringRotation _).filter (fun s => s != "")).length
          ≤ (ringRotation _).length := List.length_filter_le _ _
        _ = N := hrotlen
  · intro hne h2N
    unfold CircularBuffer.toArray
    rw [if_neg (by rw [hsize, hmax, h2N]; omega)]
    show (ringRotation _).filter (fun s => s != "") = items.drop N
    rw [hrot, if_neg (by omega), h2N, show 2 * N - N = N by omega]
    rw [List.filter_eq_self.mpr]
    intro a ha
    have : a ∈ items := List.mem_of_mem_drop ha
    simpa using hne a this

/-- Witness for C3 at capacity 2 with four non-empty lines: the buffer
retains exactly the last two in order. -/
theorem C3_circular_buffer_bounded_witness :
    ((CircularBuffer.create 2).pushAll ["a", "b", "c", "d"]).toArray.length ≤ 2 ∧
    ((CircularBuffer.create 2).pushAll ["a", "b", "c", "d"]).toArray = ["c", "d"] := by
  have h := C3_circular_buffer_bounded 2 (by decide) ["a", "b", "c", "d"]
  refine ⟨h.1, ?_⟩
  rw [h.2 (by decide) (by decide)]
  rfl

/-- Counterexample to claim C3 as literally stated: with capacity 1, pushing
the two items "" and "" (2N items) leaves toArray with 0 items, not N = 1
items, because the full-buffer branch of toArray filters falsy values. -/
theorem C3_circular_buffer_counterexample :
    ((CircularBuffer.create 1).pushAll ["", ""]).toArray.length ≠ 1 := by decide

theorem foldl_stepReady_resolved (l : List (Bool × String)) (r : ReadyOutcome) :
    l.foldl stepReady (some r) = some r := by
  induction l with
  | nil => rfl
  | cons x t ih => exact ih

theorem success_of_local_http (line : String)
    (h1 : includesStr (lowerStr line) "local" = true)
    (h2 : includesStr (lowerStr line) "http" = true) :
    isSuccessMessage line = true := by
  simp [isSuccessMessage, h1, h2]

theorem failure_of_cannot_find_module (line : String)
    (h : includesStr (lowerStr line) "cannot find module" = true) :
    isFailureMessage line = true := by
  simp [isFailureMessage, h]

/-- Counterexample to claim C4 as stated: the "Local: http://..." line
arrives first, before any failure-matching line, but while processInfo is
still unassigned; the processInfo conjunct of the success branch drops it,
so the wait is not resolved as ready and the later failure line decides
the outcome as failed. -/
theorem C4_readiness_counterexample :
    includesStr (lowerStr "Local: http://127.0.0.2:3000") "local" = true ∧
    includesStr (lowerStr "Local: http://127.0.0.2:3000") "http" = true ∧
    isFailureMessage "Local: http://127.0.0.2:3000" = false ∧
    waitOutcome [(false, "Local: http://127.0.0.2:3000"), (true, "error: late")] =
      some ReadyOutcome.failed := by decide

/-- Claim C4 (amended): over the events of the readiness wait, each line
tagged with whether processInfo was already assigned when it was handled:
a line whose lower-casing contains both "local" and "http", handled with
processInfo assigned and with no failure-matching line up to and
including it, resolves the wait as ready; a line containing "cannot find
module" preceded by no line the handler matches (failure, or success with
processInfo assigned) resolves it as failed; and once resolved, later
events never change the outcome.  (As literally stated the claim fails: a
success line handled before processInfo is assigned is dropped by the
success branch's processInfo conjunct, and a later failure line then
decides the outcome; see the counterexample.) -/
theorem C4_readiness_first_match_wins (events : List (Bool × String)) :
    (∀ i : Nat, i < events.length →
      (events.getD i (false, "")).1 = true →
      includesStr (lowerStr (events.getD i (false, "")).2) "local" = true →
      includesStr (lowerStr (events.getD i (false, "")).2) "http" = true →
      (∀ j : Nat, j ≤ i → isFailureMessage (events.getD j (false, "")).2 = false) →
      waitOutcome events = some ReadyOutcome.ready) ∧
    (∀ i : Nat, i < events.length →
      includesStr (lowerStr (events.getD i (false, "")).2) "cannot find module" = true →
      (∀ j : Nat, j < i →
        isFailureMessage (events.getD j (false, "")).2 = false ∧
        ((events.getD j (false, "")).1 &&
          isSuccessMessage (events.getD j (false, "")).2) = false) →
      waitOutcome events = some ReadyOutcome.failed) ∧
    (∀ l2 : List (Bool × String), ∀ r : ReadyOutcome,
      waitOutcome events = some r → waitOutcome (events ++ l2) = some r) := by
  refine ⟨?_, ?_, ?_⟩
  · induction events with
    | nil => intro i hi; exact absurd hi (by simp)
    | cons x t ih =>
      intro i hi hflag hloc hhttp hnofail
      have hfx : isFailureMessage x.2 = false := by
        simpa using hnofail 0 (Nat.zero_le i)
      show (x :: t).foldl stepReady none = some ReadyOutcome.ready
      rw [List.foldl_cons]
      cases i with
      | zero =>
        have hs : isSuccessMessage x.2 = true :=
          success_of_local_http x.2 (by simpa using hloc) (by simpa using hhttp)
        have hf1 : x.1 = true := by simpa using hflag
        rw [show stepReady none x = some ReadyOutcome.ready by
          simp [stepReady, hfx, hs, hf1]]
        exact foldl_stepReady_resolved t _
      | succ i2 =>
        by_cases hsx : (x.1 && isSuccessMessage x.2) = true
        · rw [show stepReady none x = some ReadyOutcome.ready by
            simp [stepReady, hfx, hsx]]
          exact foldl_stepReady_resolved t _
        · rw [show stepReady none x = none by simp [stepReady, hfx, hsx]]
          exact ih i2 (by simpa using hi) (by simpa using hflag)
            (by simpa using hloc) (by simpa using hhttp)
            (fun j hj => by simpa using hnofail (j + 1) (by omega))
  · induction events with
    | nil => intro i hi; exact absurd hi (by simp)
    | cons x t ih =>
      intro i hi hmod hnoprev
      show (x :: t).foldl stepReady none = some ReadyOutcome.failed
      rw [List.foldl_cons]
      cases i with
      | zero =>
        have hf : isFailureMessage x.2 = true :=
          failure_of_cannot_find_module x.2 (by simpa using hmod)
        rw [show stepReady none x = some ReadyOutcome.failed by simp [stepReady, hf]]
        exact foldl_stepReady_resolved t _
      | succ i2 =>
        have hx := hnoprev 0 (Nat.succ_pos i2)
        have hfx : isFailureMessage x.2 = false := by simpa using hx.1
        have hsx : (x.1 && isSuccessMessage x.2) = false := by simpa using hx.2
        rw [show stepReady none x = none by simp [stepReady, hfx, hsx]]
        exact ih i2 (by simpa using hi) (by simpa using hmod)
          (fun j hj => by simpa using hnoprev (j + 1) (by omega))
  · intro l2 r h
    have happ : waitOutcome (events ++ l2) = l2.foldl stepReady (waitOutcome events) := by
      unfold waitOutcome
      rw [List.foldl_append]
    rw [happ, h]
    exact foldl_stepReady_resolved l2 r

/-- Witness for (amended) C4: a success line handled after processInfo is
assigned resolves the wait as ready even when followed by a failure line,
and a Cannot find module line resolves it as failed (the failure branch
needs no processInfo). -/
theorem C4_readiness_first_match_wins_witness :
    waitOutcome [(false, "Compiling app"), (true, "Local: http://127.0.0.2:3000"),
      (true, "error: late")] = some ReadyOutcome.ready ∧
    waitOutcome [(false, "Error: Cannot find module next")] =
      some ReadyOutcome.failed := by
  constructor
  · have h := (C4_readiness_first_match_wins
      [(false, "Compiling app"), (true, "Local: http://127.0.0.2:3000")]).1
      1 (by decide) (by decide) (by decide) (by decide) (by decide)
    exact (C4_readiness_first_match_wins
      [(false, "Compiling app"), (true, "Local: http://127.0.0.2:3000")]).2.2
      [(true, "error: late")] _ h
  · exact (C4_readiness_first_match_wins [(false, "Error: Cannot find module next")]).2.1
      0 (by decide) (by decide) (by decide)

/-- Counterexample to claim C5 as stated: stopProcess on a tracked path
with an active proxy binding leaves the ProxyState untouched and still
active, because stopProcess never calls removeProxyRoutes. -/
theorem C5_stopProcess_counterexample :
    (cexState.running.lookup "/wt").isSome = true ∧
    (stopProcess cexState "/wt").1.proxyStates.lookup "/wt" = some cexProxy ∧
    cexProxy.status = "active" := by decide

/-- Claim C5 (amended): after stopProcess(path) for a path with a tracked
record and a persisted entry, the host allocation is released, the record
status is stopped, and the record is absent from both the in-memory
registry and the persisted store; the proxy binding is NOT removed:
proxyStates is unchanged. -/
theorem C5_stopProcess_cleanup (s : SupState) (path : String)
    (entry : RunningEntry) (sd : StoredProcessData)
    (hrun : s.running.lookup path = some entry)
    (hst : s.stored.lookup path = some sd) :
    (stopProcess s path).1.allocations.lookup path = none ∧
    (stopProcess s path).1.stored.lookup path = none ∧
    (stopProcess s path).1.running.lookup path = none ∧
    (stopProcess s path).2 = some { entry.info with status := "stopped" } ∧
    (stopProcess s path).1.proxyStates = s.proxyStates := by
  simp only [stopProcess, hrun, hst, deallocateHost]
  simp [lookup_removeKey_self]

/-- Witness for (amended) C5 at the concrete state. -/
theorem C5_stopProcess_cleanup_witness :
    (stopProcess cexState "/wt").1.allocations.lookup "/wt" = none ∧
    (stopProcess cexState "/wt").1.stored.lookup "/wt" = none ∧
    (stopProcess cexState "/wt").1.running.lookup "/wt" = none ∧
    (stopProcess cexState "/wt").2.map (fun i => i.status) = some "stopped" ∧
    (stopProcess cexState "/wt").1.proxyStates = cexState.proxyStates := by
  have h := C5_stopProcess_cleanup cexState "/wt"
    { info := cexInfo, tailFiles := ["/tmp/o.log", "/tmp/e.log"] }
    { pid := 42, command := "pnpm", args := ["dev"], outputFile := some "/tmp/o.log",
      errorFile := some "/tmp/e.log", startTime := "t0", host := some "127.0.0.2" }
    (by rfl) (by rfl)
  refine ⟨h.1, h.2.1, h.2.2.1, ?_, h.2.2.2.2⟩
  rw [h.2.2.2.1]
  rfl

/-- Claim C9: stopProcess on a path with no tracked running record and no
persisted entry completes (it is a total function here, mirroring that the
source path throws nowhere) and leaves the whole state unchanged. -/
theorem C9_stopProcess_nonexistent_noop (s : SupState) (path : String)
    (hrun : s.running.lookup path = none)
    (hst : s.stored.lookup path = none) :
    stopProcess s path = (s, none) := by
  simp only [stopProcess, hrun, hst]

/-- Witness for C9 at a concrete state with an unrelated record. -/
theorem C9_stopProcess_nonexistent_noop_witness :
    stopProcess cexState "/other" = (cexState, none) :=
  C9_stopProcess_nonexistent_noop cexState "/other" (by rfl) (by rfl)

/-- Claim C10 (refuted; the code comment documents the id as unique): the
distinct paths ab and ab> receive the same id YWI, because their base64
encodings YWI= and YWI+ differ only in the stripped characters = and +.
Registering or removing routes for one of these paths therefore targets the
other path's server ids. -/
theorem C10_getWorktreeId_collision :
    getWorktreeId "ab" = getWorktreeId "ab>" ∧
    ("ab" : String) ≠ "ab>" ∧
    getWorktreeId "ab" = "YWI" := by decide

/-! ### Preservation lemmas for the conflict scan -/
theorem removeProxyRoutes_lookup_self (w : ProxyWorld) (q : String) :
    (removeProxyRoutes w q).1.proxyStates.lookup q = none := by
  unfold removeProxyRoutes
  cases h : w.proxyStates.lookup q with
  | none => simpa using h
  | some st => simpa using lookup_removeKey_self w.proxyStates q

theorem removeProxyRoutes_lookup_ne (w : ProxyWorld) (q k : String) (h : k ≠ q) :
    (removeProxyRoutes w q).1.proxyStates.lookup k = w.proxyStates.lookup k := by
  unfold removeProxyRoutes
  cases hq : w.proxyStates.lookup q with
  | none => rfl
  | some st => simpa using lookup_removeKey_ne w.proxyStates q k h

theorem removeProxyRoutes_caddy_subset (w : ProxyWorld) (q : String) (y : String)
    (h : y ∈ (removeProxyRoutes w q).1.caddyServers) : y ∈ w.caddyServers := by
  unfold removeProxyRoutes at h
  cases hq : w.proxyStates.lookup q with
  | none => rw [hq] at h; exact h
  | some st =>
    rw [hq] at h
    simp only at h
    revert h
    generalize w.caddyServers = cs
    induction st.ports generalizing cs with
    | nil => exact fun h => h
    | cons p t ih =>
      intro h
      have := ih (removeId cs (srvId q p)) h
      exact List.mem_of_mem_filter this

theorem conflictStep_lookup_path (path : String) (ports : List Nat) (acc : ProxyWorld)
    (other : String × ProxyState) :
    (conflictStep path ports acc other).proxyStates.lookup path =
      acc.proxyStates.lookup path := by
  unfold conflictStep
  split
  · rename_i hcond
    simp only [Bool.and_eq_true, bne_iff_ne] at hcond
    exact removeProxyRoutes_lookup_ne acc other.1 path (fun he => hcond.1.1 he.symm)
  · rfl

theorem conflictStep_lookup_ne (path : String) (ports : List Nat) (acc : ProxyWorld)
    (other : String × ProxyState) (k : String) (hne : other.1 ≠ k) :
    (conflictStep path ports acc other).proxyStates.lookup k =
      acc.proxyStates.lookup k := by
  unfold conflictStep
  split
  · exact removeProxyRoutes_lookup_ne acc other.1 k (fun he => hne he.symm)
  · rfl

theorem conflictStep_lookup_none (path : String) (ports : List Nat) (acc : ProxyWorld)
    (other : String × ProxyState) (k : String)
    (h : acc.proxyStates.lookup k = none) :
    (conflictStep path ports acc other).proxyStates.lookup k = none := by
  by_cases he : k = other.1
  · subst he
    unfold conflictStep
    split
    · exact removeProxyRoutes_lookup_self acc other.1
    · exact h
  · rw [conflictStep_lookup_ne path ports acc other k (fun h2 => he h2.symm)]
    exact h

theorem conflictStep_caddy_subset (path : String) (ports : List Nat) (acc : ProxyWorld)
    (other : String × ProxyState) (y : String)
    (h : y ∈ (conflictStep path ports acc other).caddyServers) :
    y ∈ acc.caddyServers := by
  unfold conflictStep at h
  split at h
  · exact removeProxyRoutes_caddy_subset acc other.1 y h
  · exact h

theorem foldl_conflictStep_lookup_none (path : String) (ports : List Nat)
    (l : List (String × ProxyState)) (k : String) :
    ∀ acc : ProxyWorld, acc.proxyStates.lookup k = none →
      (l.foldl (conflictStep path ports) acc).proxyStates.lookup k = none := by
  induction l with
  | nil => exact fun acc h => h
  | cons o t ih =>
    intro acc h
    rw [List.foldl_cons]
    exact ih _ (conflictStep_lookup_none path ports acc o k h)

theorem foldl_conflictStep_caddy_subset (path : String) (ports : List Nat)
    (l : List (String × ProxyState)) (y : String) :
    ∀ acc : ProxyWorld, y ∈ (l.foldl (conflictStep path ports) acc).caddyServers →
      y ∈ acc.caddyServers := by
  induction l with
  | nil => exact fun acc h => h
  | cons o t ih =>
    intro acc h
    exact conflictStep_caddy_subset path ports acc o y (ih _ h)

theorem foldl_conflictStep_lookup_of_ne_keys (path : String) (ports : List Nat)
    (l : List (String × ProxyState)) (k : String) (hk : ∀ o ∈ l, o.1 ≠ k) :
    ∀ acc : ProxyWorld,
      (l.foldl (conflictStep path ports) acc).proxyStates.lookup k =
        acc.proxyStates.lookup k := by
  induction l with
  | nil => exact fun acc => rfl
  | cons o t ih =>
    intro acc
    rw [List.foldl_cons, ih (fun p hp => hk p (List.mem_cons_of_mem o hp)),
      conflictStep_lookup_ne path ports acc o k (hk o (List.mem_cons_self o t))]

theorem foldl_conflictStep_lookup_path (path : String) (ports : List Nat)
    (l : List (String × ProxyState)) :
    ∀ acc : ProxyWorld,
      (l.foldl (conflictStep path ports) acc).proxyStates.lookup path =
        acc.proxyStates.lookup path := by
  induction l with
  | nil => exact fun acc => rfl
  | cons o t ih =>
    intro acc
    rw [List.foldl_cons, ih, conflictStep_lookup_path]

/-! ### removeId fold lemmas -/
theorem not_mem_foldl_removeId {α : Type} (t : List α) (f : α → String) :
    ∀ cs x, x ∉ cs → x ∉ t.foldl (fun c q => removeId c (f q)) cs := by
  induction t with
  | nil => exact fun cs x h => h
  | cons q rest ih =>
    intro cs x h
    rw [List.foldl_cons]
    exact ih _ x (fun hm => h (List.mem_of_mem_filter hm))

theorem mem_foldl_removeId_absent {α : Type} (t : List α) (f : α → String) :
    ∀ cs x, (∃ q ∈ t, f q = x) → x ∉ t.foldl (fun c q => removeId c (f q)) cs := by
  induction t with
  | nil => rintro cs x ⟨q, hq, _⟩; exact absurd hq (by simp)
  | cons q rest ih =>
    rintro cs x ⟨q0, hq0, hfx⟩
    rw [List.foldl_cons]
    rcases List.mem_cons.mp hq0 with he | hm
    · subst he
      refine not_mem_foldl_removeId rest f _ x ?_
      intro hmem
      have := List.of_mem_filter hmem
      rw [hfx] at this
      simp at this
    · exact ih _ x ⟨q0, hm, hfx⟩

/-- Claim C6: calling setupProxyRoutes for path A while another path B
holds an active ProxyState with a conflicting port removes all of B's
routes and clears B's ProxyState already during the conflict scan (before
A's routes are registered), and when the call succeeds A's ProxyState is
active while B's is gone: exactly one of the two is active. -/
theorem C6_conflicting_proxy_disabled (w : ProxyWorld)
    (pathA pathB targetHost now : String) (ports : List Nat) (putOk : Nat → Bool)
    (stB : ProxyState)
    (hB : w.proxyStates.lookup pathB = some stB)
    (hBA : pathB ≠ pathA)
    (hactive : stB.status = "active")
    (hconf : ∃ p, p ∈ ports ∧ p ∈ stB.ports) :
    ((conflictPass w pathA ports).proxyStates.lookup pathB = none ∧
      ∀ p ∈ stB.ports, srvId pathB p ∉ (conflictPass w pathA ports).caddyServers) ∧
    ((setupProxyRoutes w pathA targetHost ports putOk now).2 = true →
      ((setupProxyRoutes w pathA targetHost ports putOk now).1.proxyStates.lookup
          pathA).map (fun st => st.status) = some "active" ∧
      (setupProxyRoutes w pathA targetHost ports putOk
        now).1.proxyStates.lookup pathB = none) := by
  obtain ⟨l1, l2, hsplit, hpre⟩ := List.lookup_eq_some_iff.mp hB
  have hwa : (l1.foldl (conflictStep pathA ports) w).proxyStates.lookup pathB =
      some stB := by
    rw [foldl_conflictStep_lookup_of_ne_keys pathA ports l1 pathB
      (fun o ho hoe => by
        have hb := hpre o ho
        rw [hoe] at hb
        simp at hb), hB]
  set wa := l1.foldl (conflictStep pathA ports) w with hwadef
  obtain ⟨p0, hp01, hp02⟩ := hconf
  have hmem0 : p0 ∈ stB.ports.filter (fun q => ports.contains q) :=
    List.mem_filter.mpr ⟨hp02, List.elem_iff.mpr hp01⟩
  have hne0 : (stB.ports.filter (fun q => ports.contains q)).isEmpty = false := by
    cases hf : stB.ports.filter (fun q => ports.contains q) with
    | nil => rw [hf] at hmem0; exact absurd hmem0 (by simp)
    | cons a t => rfl
  have hcond : (pathB != pathA && stB.status == "active" &&
      !(stB.ports.filter (fun q => ports.contains q)).isEmpty) = true := by
    rw [hne0]
    simp [hBA, hactive]
  have hstep : conflictStep pathA ports wa (pathB, stB) =
      (removeProxyRoutes wa pathB).1 := by
    show (if pathB != pathA && stB.status == "active" &&
        !(stB.ports.filter (fun q => ports.contains q)).isEmpty then
        (removeProxyRoutes wa pathB).1 else wa) = (removeProxyRoutes wa pathB).1
    rw [if_pos hcond]
  have hrm : (removeProxyRoutes wa pathB).1 =
      { proxyStates := removeKey wa.proxyStates pathB,
        caddyServers := stB.ports.foldl
          (fun cs port => removeId cs (srvId pathB port)) wa.caddyServers } := by
    unfold removeProxyRoutes
    rw [hwa]
  have hcp : conflictPass w pathA ports =
      l2.foldl (conflictStep pathA ports)
        (conflictStep pathA ports wa (pathB, stB)) := by
    unfold conflictPass
    rw [hsplit, List.foldl_append, List.foldl_cons]
  have hgone : (conflictPass w pathA ports).proxyStates.lookup pathB = none := by
    rw [hcp, hstep, hrm]
    exact foldl_conflictStep_lookup_none pathA ports l2 pathB _
      (lookup_removeKey_self wa.proxyStates pathB)
  have hcaddyB : ∀ p ∈ stB.ports,
      srvId pathB p ∉ (conflictPass w pathA ports).caddyServers := by
    intro p hp hmem2
    rw [hcp, hstep, hrm] at hmem2
    have hmem3 := foldl_conflictStep_caddy_subset pathA ports l2 _ _ hmem2
    exact mem_foldl_removeId_absent stB.ports (srvId pathB) wa.caddyServers _
      ⟨p, hp, rfl⟩ hmem3
  refine ⟨⟨hgone, hcaddyB⟩, ?_⟩
  intro hok
  rcases hreg : registerLoop putOk pathA ports
      (conflictPass w pathA ports).caddyServers [] with ⟨caddy2, sids, ok⟩
  cases ok with
  | false =>
    rw [show setupProxyRoutes w pathA targetHost ports putOk now =
      ({ proxyStates := (conflictPass w pathA ports).proxyStates,
         caddyServers := sids.foldl removeId caddy2 }, false) by
        unfold setupProxyRoutes; rw [hreg]] at hok
    exact absurd hok (by simp)
  | true =>
    rw [show setupProxyRoutes w pathA targetHost ports putOk now =
      ({ proxyStates := setKey (conflictPass w pathA ports).proxyStates pathA
          { worktreePath := pathA, targetHost := targetHost, ports := ports,
            status := "active", caddyServerIds := sids,
            createdAt := now, updatedAt := now },
         caddyServers := caddy2 }, true) by
        unfold setupProxyRoutes; rw [hreg]]
    constructor
    · show ((setKey (conflictPass w pathA ports).proxyStates pathA
          { worktreePath := pathA, targetHost := targetHost, ports := ports,
            status := "active", caddyServerIds := sids,
            createdAt := now, updatedAt := now }).lookup pathA).map
          (fun st => st.status) = some "active"
      rw [lookup_setKey_self]
      rfl
    · show (setKey (conflictPass w pathA ports).proxyStates pathA
          { worktreePath := pathA, targetHost := targetHost, ports := ports,
            status := "active", caddyServerIds := sids,
            createdAt := now, updatedAt := now }).lookup pathB = none
      rw [lookup_setKey_ne _ _ _ _ hBA]
      exact hgone

/-- Witness for C6: enabling /a on port 3000 disables /b first; the call
succeeds and exactly /a is active afterwards. -/
theorem C6_conflicting_proxy_disabled_witness :
    ((conflictPass c6World "/a" [3000]).proxyStates.lookup "/b" = none ∧
      ∀ p ∈ c6StB.ports, srvId "/b" p ∉ (conflictPass c6World "/a" [3000]).caddyServers) ∧
    ((setupProxyRoutes c6World "/a" "127.0.0.2" [3000] (fun _ => true) "t1").2 = true →
      ((setupProxyRoutes c6World "/a" "127.0.0.2" [3000] (fun _ => true)
          "t1").1.proxyStates.lookup "/a").map (fun st => st.status) = some "active" ∧
      (setupProxyRoutes c6World "/a" "127.0.0.2" [3000] (fun _ => true)
        "t1").1.proxyStates.lookup "/b" = none) :=
  C6_conflicting_proxy_disabled c6World "/a" "/b" "127.0.0.2" "t1" [3000]
    (fun _ => true) c6StB (by rfl) (by decide) (by rfl)
    ⟨3000, by decide, by decide⟩

theorem registerLoop_fails (putOk : Nat → Bool) (path : String) :
    ∀ ports : List Nat, (∃ p ∈ ports, putOk p = false) →
      ∀ caddy acc, (registerLoop putOk path ports caddy acc).2.2 = false := by
  intro ports
  induction ports with
  | nil => rintro ⟨p, hp, _⟩ _ _; exact absurd hp (by simp)
  | cons q rest ih =>
    rintro ⟨p, hp, hpf⟩ caddy acc
    rw [registerLoop]
    by_cases hq : putOk q = true
    · rw [if_pos hq]
      apply ih
      rcases List.mem_cons.mp hp with he | hm
      · subst he; rw [hq] at hpf; cases hpf
      · exact ⟨p, hm, hpf⟩
    · rw [if_neg hq]

/-- Claim C7: when the per-port route registration fails for some port of
the list, setupProxyRoutes reports failure, every server id pushed by that
call has been deleted from the admin API again, and the path's ProxyState
entry is exactly what it was before the call (no active state saved). -/
theorem C7_partial_failure_cleanup (w : ProxyWorld) (path targetHost now : String)
    (ports : List Nat) (putOk : Nat → Bool)
    (hfail : ∃ p ∈ ports, putOk p = false) :
    (setupProxyRoutes w path targetHost ports putOk now).2 = false ∧
    (∀ sid ∈ (registerLoop putOk path ports
        (conflictPass w path ports).caddyServers []).2.1,
      sid ∉ (setupProxyRoutes w path targetHost ports putOk now).1.caddyServers) ∧
    (setupProxyRoutes w path targetHost ports putOk now).1.proxyStates.lookup path =
      w.proxyStates.lookup path := by
  rcases hreg : registerLoop putOk path ports (conflictPass w path ports).caddyServers []
    with ⟨caddy2, sids, ok⟩
  have hko : ok = false := by
    have h2 := registerLoop_fails putOk path ports hfail
      (conflictPass w path ports).caddyServers []
    rw [hreg] at h2
    exact h2
  subst hko
  have hsetup : setupProxyRoutes w path targetHost ports putOk now =
      ({ proxyStates := (conflictPass w path ports).proxyStates,
         caddyServers := sids.foldl removeId caddy2 }, false) := by
    unfold setupProxyRoutes
    rw [hreg]
  refine ⟨by rw [hsetup], ?_, ?_⟩
  · intro sid hsid
    have hsid2 : sid ∈ sids := hsid
    rw [hsetup]
    show sid ∉ sids.foldl removeId caddy2
    exact mem_foldl_removeId_absent sids (fun x => x) caddy2 sid ⟨sid, hsid2, rfl⟩
  · rw [hsetup]
    show (conflictPass w path ports).proxyStates.lookup path =
      w.proxyStates.lookup path
    unfold conflictPass
    exact foldl_conflictStep_lookup_path path ports w.proxyStates w

/-- Witness for C7: registration for port 3000 fails, the call reports
failure, the pushed id is deleted and no state is saved for /a. -/
theorem C7_partial_failure_cleanup_witness :
    (setupProxyRoutes c6World "/a" "127.0.0.2" [3000] (fun p => p != 3000) "t1").2
        = false ∧
    (∀ sid ∈ (registerLoop (fun p => p != 3000) "/a" [3000]
        (conflictPass c6World "/a" [3000]).caddyServers []).2.1,
      sid ∉ (setupProxyRoutes c6World "/a" "127.0.0.2" [3000]
        (fun p => p != 3000) "t1").1.caddyServers) ∧
    (setupProxyRoutes c6World "/a" "127.0.0.2" [3000]
        (fun p => p != 3000) "t1").1.proxyStates.lookup "/a" =
      c6World.proxyStates.lookup "/a" :=
  C7_partial_failure_cleanup c6World "/a" "127.0.0.2" "t1" [3000]
    (fun p => p != 3000) ⟨3000, by decide, by decide⟩

/-! ### Lemmas for reconciliation -/
theorem toArray_pushAll_small (N : Nat) (hN : 0 < N) (l : List String)
    (hlt : l.length < N) :
    ((CircularBuffer.create N).pushAll l).toArray = l := by
  obtain ⟨hmax, hlen, hptr, hsize, hrot⟩ := ringInv_pushAll N hN l
  have hpe : ((CircularBuffer.create N).pushAll l).pointer = l.length := by
    rw [hptr]
    exact Nat.mod_eq_of_lt hlt
  unfold CircularBuffer.toArray
  rw [if_pos (show ((CircularBuffer.create N).pushAll l).size <
      ((CircularBuffer.create N).pushAll l).maxSize by rw [hsize, hmax]; omega)]
  rw [hsize, show min l.length N = l.length by omega]
  rw [if_pos hlt] at hrot
  unfold ringRotation at hrot
  rw [hpe] at hrot
  have hlens : (((CircularBuffer.create N).pushAll l).buffer.drop l.length).length =
      (List.replicate (N - l.length) ("" : String)).length := by
    rw [List.length_drop, hlen, List.length_replicate]
  exact (List.append_inj hrot hlens).2

theorem tailLines_short (env : Env) (f : Option String)
    (htail : ∀ g, (env.fileTail g).length ≤ 1000) :
    (tailLines env f).length < MAX_OUTPUT_LINES := by
  unfold tailLines MAX_OUTPUT_LINES
  cases f with
  | none => simp
  | some file =>
    show (if env.fileExists file = true then
        (env.fileTail file).filter (fun l => l.trim != "")
      else []).length < 50000
    by_cases hfe : env.fileExists file = true
    · rw [if_pos hfe]
      calc ((env.fileTail file).filter (fun l => l.trim != "")).length
          ≤ (env.fileTail file).length := List.length_filter_le _ _
        _ ≤ 1000 := htail file
        _ < 50000 := by omega
    · rw [if_neg hfe]
      simp

theorem restoredInfo_eq (env : Env) (path : String) (data : StoredProcessData)
    (htail : ∀ g, (env.fileTail g).length ≤ 1000) :
    restoredInfo env path data =
      { pid := data.pid, command := data.command, args := data.args, cwd := path,
        startTime := data.startTime,
        outputBuffer := tailLines env data.outputFile,
        errorBuffer := tailLines env data.errorFile,
        status := "running", outputFile := data.outputFile,
        errorFile := data.errorFile, host := data.host } := by
  unfold restoredInfo
  rw [toArray_pushAll_small _ (by decide) _ (tailLines_short env data.outputFile htail),
    toArray_pushAll_small _ (by decide) _ (tailLines_short env data.errorFile htail)]

theorem restoreAllocations_lookup_ne (s : SupState) (path : String)
    (data : StoredProcessData) (k : String) (hk : k ≠ path) :
    (restoreAllocations s path data).lookup k = s.allocations.lookup k := by
  unfold restoreAllocations
  cases data.host with
  | none => rfl
  | some h =>
    cases hl : s.allocations.lookup path with
    | none => exact lookup_setKey_ne _ _ _ _ hk
    | some ex =>
      show (if ex.host = "" then
          setKey s.allocations path ⟨h, path, data.startTime⟩
        else s.allocations).lookup k = s.allocations.lookup k
      by_cases he : ex.host = ""
      · rw [if_pos he]
        exact lookup_setKey_ne _ _ _ _ hk
      · rw [if_neg he]

theorem cleanupStep_stored_ne (env : Env) (acc : SupState × List SupAction)
    (e : String × StoredProcessData) (k : String) (hk : e.1 ≠ k) :
    (cleanupStep env acc e).1.stored.lookup k = acc.1.stored.lookup k := by
  unfold cleanupStep
  split
  · exact lookup_removeKey_ne _ _ _ (fun h => hk h.symm)
  · split
    · exact lookup_removeKey_ne _ _ _ (fun h => hk h.symm)
    · unfold restoreProcessFromStorage
      split
      · rfl
      · rfl

theorem cleanupStep_alloc_ne (env : Env) (acc : SupState × List SupAction)
    (e : String × StoredProcessData) (k : String) (hk : e.1 ≠ k) :
    (cleanupStep env acc e).1.allocations.lookup k = acc.1.allocations.lookup k := by
  unfold cleanupStep
  split
  · unfold deallocateHost
    exact lookup_removeKey_ne _ _ _ (fun h => hk h.symm)
  · split
    · unfold deallocateHost
      exact lookup_removeKey_ne _ _ _ (fun h => hk h.symm)
    · unfold restoreProcessFromStorage
      split
      · exact restoreAllocations_lookup_ne acc.1 e.1 e.2 k (fun h => hk h.symm)
      · exact restoreAllocations_lookup_ne acc.1 e.1 e.2 k (fun h => hk h.symm)

theorem cleanupStep_running_ne (env : Env) (acc : SupState × List SupAction)
    (e : String × StoredProcessData) (k : String) (hk : e.1 ≠ k) :
    (cleanupStep env acc e).1.running.lookup k = acc.1.running.lookup k := by
  unfold cleanupStep
  split
  · rfl
  · split
    · rfl
    · unfold restoreProcessFromStorage
      split
      · exact lookup_setKey_ne _ _ _ _ (fun h => hk h.symm)
      · rfl

theorem cleanupStep_acts_mono (env : Env) (acc : SupState × List SupAction)
    (e : String × StoredProcessData) (a : SupAction) (ha : a ∈ acc.2) :
    a ∈ (cleanupStep env acc e).2 := by
  unfold cleanupStep
  split
  · exact ha
  · split
    · exact ha
    · exact List.mem_append_left _ ha

theorem foldl_cleanupStep_preserve (env : Env) (l : List (String × StoredProcessData))
    (k : String) (hkeys : ∀ o ∈ l, o.1 ≠ k) :
    ∀ acc : SupState × List SupAction,
      (l.foldl (cleanupStep env) acc).1.stored.lookup k = acc.1.stored.lookup k ∧
      (l.foldl (cleanupStep env) acc).1.allocations.lookup k =
        acc.1.allocations.lookup k ∧
      (l.foldl (cleanupStep env) acc).1.running.lookup k = acc.1.running.lookup k := by
  induction l with
  | nil => exact fun acc => ⟨rfl, rfl, rfl⟩
  | cons o t ih =>
    intro acc
    rw [List.foldl_cons]
    obtain ⟨h1, h2, h3⟩ :=
      (fun p hp => hkeys p (List.mem_cons_of_mem o hp)) |> ih |> (· (cleanupStep env acc o))
    have hko := hkeys o (List.mem_cons_self o t)
    exact ⟨h1.trans (cleanupStep_stored_ne env acc o k hko),
      h2.trans (cleanupStep_alloc_ne env acc o k hko),
      h3.trans (cleanupStep_running_ne env acc o k hko)⟩

theorem foldl_cleanupStep_acts_mono (env : Env) (l : List (String × StoredProcessData))
    (a : SupAction) :
    ∀ acc : SupState × List SupAction,
      a ∈ acc.2 → a ∈ (l.foldl (cleanupStep env) acc).2 := by
  induction l with
  | nil => exact fun acc h => h
  | cons o t ih =>
    intro acc h
    rw [List.foldl_cons]
    exact ih _ (cleanupStep_acts_mono env acc o a h)

theorem cleanupStep_no_spawn (env : Env) (acc : SupState × List SupAction)
    (e : String × StoredProcessData)
    (hacc : ∀ a ∈ acc.2, ∀ q c, a ≠ SupAction.spawnDevServer q c) :
    ∀ a ∈ (cleanupStep env acc e).2, ∀ q c, a ≠ SupAction.spawnDevServer q c := by
  unfold cleanupStep
  split
  · exact hacc
  · split
    · exact hacc
    · intro a ha q c
      rcases List.mem_append.mp ha with h1 | h2
      · exact hacc a h1 q c
      · unfold restoreProcessFromStorage at h2
        split at h2
        · rcases List.mem_append.mp h2 with h3 | h4
          · obtain ⟨f, _, rfl⟩ := List.mem_map.mp h3
            simp
          · rw [List.mem_singleton] at h4
            subst h4
            simp
        · exact absurd h2 (by simp)

theorem foldl_cleanupStep_no_spawn (env : Env)
    (l : List (String × StoredProcessData)) :
    ∀ acc : SupState × List SupAction,
      (∀ a ∈ acc.2, ∀ q c, a ≠ SupAction.spawnDevServer q c) →
      ∀ a ∈ (l.foldl (cleanupStep env) acc).2, ∀ q c,
        a ≠ SupAction.spawnDevServer q c := by
  induction l with
  | nil => exact fun acc h => h
  | cons o t ih =>
    intro acc h
    rw [List.foldl_cons]
    exact ih _ (cleanupStep_no_spawn env acc o h)

theorem cleanupStep_dead (env : Env) (acc : SupState × List SupAction)
    (e : String × StoredProcessData)
    (hdead : env.dirExists e.1 = false ∨ env.pidAlive e.2.pid = false) :
    cleanupStep env acc e =
      ({ acc.1 with
          stored := removeKey acc.1.stored e.1
          allocations := deallocateHost acc.1.allocations e.1 }, acc.2) := by
  unfold cleanupStep
  rcases hdead with hd | hp
  · rw [if_pos (by rw [hd]; rfl)]
  · by_cases hd : env.dirExists e.1 = true
    · rw [if_neg (by rw [hd]; simp), if_pos (by rw [hp]; rfl)]
    · have hd2 : env.dirExists e.1 = false := by
        cases hh : env.dirExists e.1
        · rfl
        · exact absurd hh hd
      rw [if_pos (by rw [hd2]; rfl)]

theorem cleanupStep_alive (env : Env) (acc : SupState × List SupAction)
    (e : String × StoredProcessData)
    (hdir : env.dirExists e.1 = true) (halive : env.pidAlive e.2.pid = true)
    (hlog : hasLogFile env e.2 = true) :
    cleanupStep env acc e =
      ({ acc.1 with
          allocations := restoreAllocations acc.1 e.1 e.2
          running := setKey acc.1.running e.1
            { info := restoredInfo env e.1 e.2,
              tailFiles := restoredTailFiles env e.2 } },
       acc.2 ++ ((restoredTailFiles env e.2).map SupAction.spawnTail ++
         [SupAction.startPoller e.1])) := by
  unfold cleanupStep
  rw [if_neg (by rw [hdir]; simp), if_neg (by rw [halive]; simp)]
  unfold restoreProcessFromStorage
  rw [if_pos hlog]

/-- Claim C8 (amended): every persisted entry whose directory is gone or
whose pid is dead is removed from the store and its host deallocated; an
entry whose pid is alive and that still has at least one log file is
re-attached: registered as running with buffers rebuilt from the filtered
log-file tails, tail readers spawned on the surviving files and the
liveness poller restarted; and reconciliation never spawns a dev-server
process.  (As literally stated the claim fails when the pid is alive but
neither log file exists: then the entry is kept in the store without any
re-attachment; see the counterexample.) -/
theorem C8_orphan_reconciliation (env : Env) (s : SupState)
    (path : String) (data : StoredProcessData)
    (hmem : (path, data) ∈ s.stored)
    (hnodup : (s.stored.map Prod.fst).Nodup)
    (htail : ∀ g, (env.fileTail g).length ≤ 1000) :
    (env.dirExists path = false ∨ env.pidAlive data.pid = false →
      (cleanupOrphanedProcesses env s).1.stored.lookup path = none ∧
      (cleanupOrphanedProcesses env s).1.allocations.lookup path = none) ∧
    (env.dirExists path = true → env.pidAlive data.pid = true →
      hasLogFile env data = true →
      (cleanupOrphanedProcesses env s).1.running.lookup path = some
        { info :=
            { pid := data.pid, command := data.command, args := data.args,
              cwd := path, startTime := data.startTime,
              outputBuffer := tailLines env data.outputFile,
              errorBuffer := tailLines env data.errorFile,
              status := "running", outputFile := data.outputFile,
              errorFile := data.errorFile, host := data.host },
          tailFiles := restoredTailFiles env data } ∧
      SupAction.startPoller path ∈ (cleanupOrphanedProcesses env s).2 ∧
      ∀ f ∈ restoredTailFiles env data,
        SupAction.spawnTail f ∈ (cleanupOrphanedProcesses env s).2) ∧
    (∀ a ∈ (cleanupOrphanedProcesses env s).2, ∀ q c,
      a ≠ SupAction.spawnDevServer q c) := by
  obtain ⟨l1, l2, hsplit⟩ := List.append_of_mem hmem
  have hl2keys : ∀ o ∈ l2, o.1 ≠ path := by
    intro o ho
    have hmapn : ((l1 ++ (path, data) :: l2).map Prod.fst).Nodup := hsplit ▸ hnodup
    rw [List.map_append, List.map_cons] at hmapn
    have h2 := hmapn.of_append_right
    have h3 : path ∉ l2.map Prod.fst := (List.nodup_cons.mp h2).1
    intro he
    exact h3 (he ▸ List.mem_map_of_mem Prod.fst ho)
  have hdecomp : cleanupOrphanedProcesses env s =
      l2.foldl (cleanupStep env)
        (cleanupStep env
          (l1.foldl (cleanupStep env) (s, [SupAction.killOrphanTails]))
          (path, data)) := by
    unfold cleanupOrphanedProcesses
    rw [hsplit, List.foldl_append, List.foldl_cons]
  set sa := l1.foldl (cleanupStep env) (s, [SupAction.killOrphanTails]) with hsadef
  refine ⟨?_, ?_, ?_⟩
  · intro hdead
    rw [hdecomp, cleanupStep_dead env sa (path, data) hdead]
    obtain ⟨hps1, hps2, _⟩ := foldl_cleanupStep_preserve env l2 path hl2keys
      ({ sa.1 with
          stored := removeKey sa.1.stored path
          allocations := deallocateHost sa.1.allocations path }, sa.2)
    refine ⟨hps1.trans ?_, hps2.trans ?_⟩
    · exact lookup_removeKey_self _ _
    · exact lookup_removeKey_self _ _
  · intro hdir halive hlog
    rw [hdecomp, cleanupStep_alive env sa (path, data) hdir halive hlog]
    obtain ⟨_, _, hps3⟩ := foldl_cleanupStep_preserve env l2 path hl2keys
      ({ sa.1 with
          allocations := restoreAllocations sa.1 path data
          running := setKey sa.1.running path
            { info := restoredInfo env path data,
              tailFiles := restoredTailFiles env data } },
       sa.2 ++ ((restoredTailFiles env data).map SupAction.spawnTail ++
         [SupAction.startPoller path]))
    refine ⟨?_, ?_, ?_⟩
    · rw [hps3]
      show (setKey sa.1.running path
        { info := restoredInfo env path data,
          tailFiles := restoredTailFiles env data }).lookup path = _
      rw [lookup_setKey_self, restoredInfo_eq env path data htail]
    · exact foldl_cleanupStep_acts_mono env l2 _ _
        (List.mem_append_right _ (List.mem_append_right _ (List.mem_singleton.mpr rfl)))
    · intro f hf
      exact foldl_cleanupStep_acts_mono env l2 _ _
        (List.mem_append_right _ (List.mem_append_left _
          (List.mem_map_of_mem SupAction.spawnTail hf)))
  · unfold cleanupOrphanedProcesses
    refine foldl_cleanupStep_no_spawn env s.stored (s, [SupAction.killOrphanTails]) ?_
    intro a ha q c
    rw [List.mem_singleton] at ha
    subst ha
    simp

/-- Witness for (amended) C8: the live entry is re-attached with rebuilt
buffers, tail readers and poller, and nothing spawns a dev server. -/
theorem C8_orphan_reconciliation_witness :
    ((cleanupOrphanedProcesses c8EnvLive c8State).1.running.lookup "/wt" = some
      { info :=
          { pid := c8Data.pid, command := c8Data.command, args := c8Data.args,
            cwd := "/wt", startTime := c8Data.startTime,
            outputBuffer := tailLines c8EnvLive c8Data.outputFile,
            errorBuffer := tailLines c8EnvLive c8Data.errorFile,
            status := "running", outputFile := c8Data.outputFile,
            errorFile := c8Data.errorFile, host := c8Data.host },
        tailFiles := restoredTailFiles c8EnvLive c8Data } ∧
      SupAction.startPoller "/wt" ∈ (cleanupOrphanedProcesses c8EnvLive c8State).2 ∧
      ∀ f ∈ restoredTailFiles c8EnvLive c8Data,
        SupAction.spawnTail f ∈ (cleanupOrphanedProcesses c8EnvLive c8State).2) ∧
    (∀ a ∈ (cleanupOrphanedProcesses c8EnvLive c8State).2, ∀ q c,
      a ≠ SupAction.spawnDevServer q c) := by
  have h := C8_orphan_reconciliation c8EnvLive c8State "/wt" c8Data (by decide)
    (by decide)
    (fun g => (by decide : (["line one", "", "line two"] : List String).length ≤ 1000))
  exact ⟨h.2.1 (by decide) (by decide) (by decide), h.2.2⟩

/-- Counterexample to claim C8 as stated: the entry's pid is alive and its
directory exists, but both log files are gone; reconciliation then does
not re-attach (no running registration, no tail readers, no poller) and
merely keeps the entry in the store. -/
theorem C8_orphan_reconciliation_counterexample :
    c8EnvNoLogs.pidAlive c8Data.pid = true ∧
    c8EnvNoLogs.dirExists "/wt" = true ∧
    (cleanupOrphanedProcesses c8EnvNoLogs c8State).1.running.lookup "/wt" = none ∧
    (cleanupOrphanedProcesses c8EnvNoLogs c8State).1.stored.lookup "/wt" =
      some c8Data ∧
    (cleanupOrphanedProcesses c8EnvNoLogs c8State).2 =
      [SupAction.killOrphanTails] := by
  decide

end GitWorktrees

